import Mathlib

/-!
# Verification of the firmware pre-upload safety validator and UF2 uploader

Shallow embedding of the relevant parts of `tools/pre_upload_check.py` and
`tools/uf2_upload.py` (Jdubz/blinky_time), with theorems settling the frozen
claims about the Intel-HEX record parser, the memory-safety validator, the
multi-device upload result aggregation, and the reboot verifier.

File reading, printing and subprocess calls are not modelled; each Python
function is embedded as a pure function over its data (a hex file becomes its
list of lines, polling loops become functions of the poll index with a fuel
bound standing for the timeout).
-/

set_option autoImplicit false

namespace PreUploadCheck

/-! ## Python string primitives used by `parse_intel_hex`

`pySlice s a b` models the Python slice `s[a:b]` (negative indices counted
from the end, out-of-range indices clamped).  `pyStrip` models `str.strip()`.
`intHex?` models `int(s, 16)`: `none` models the `ValueError` raised on an
empty string or a non-hex-digit character.  (Python's `int` additionally
tolerates surrounding whitespace, a sign, a `0x` prefix and underscores; no
input appearing in any claim exercises that leniency, and the program's own
slices never produce such strings from well-formed lines.) -/

def pyIndex (len : Nat) (i : Int) : Nat :=
  if i < 0 then (↑len + i).toNat else min i.toNat len

def pySlice (s : List Char) (a b : Int) : List Char :=
  (s.take (pyIndex s.length b)).drop (pyIndex s.length a)

def pyStrip (s : List Char) : List Char :=
  ((s.dropWhile Char.isWhitespace).reverse.dropWhile Char.isWhitespace).reverse

def hexVal? (c : Char) : Option Nat :=
  if '0' ≤ c ∧ c ≤ '9' then some (c.toNat - 48)
  else if 'A' ≤ c ∧ c ≤ 'F' then some (c.toNat - 55)
  else if 'a' ≤ c ∧ c ≤ 'f' then some (c.toNat - 87)
  else none

def intHexCore : Nat → List Char → Option Nat
  | acc, [] => some acc
  | acc, c :: cs =>
    match hexVal? c with
    | none => none
    | some d => intHexCore (16 * acc + d) cs

def intHex? (s : List Char) : Option Nat :=
  if s = [] then none else intHexCore 0 s

/-- The checksum loop `for i in range(0, len(data), 2): calc_sum += int(data[i:i+2], 16)`:
sum of the values of the successive two-character chunks (`none` models the
`ValueError` when a chunk is not valid hex). -/
def chunkSum : List Char → Option Nat
  | [] => some 0
  | [c] => intHex? [c]
  | c1 :: c2 :: rest =>
    match intHex? [c1, c2], chunkSum rest with
    | some v, some s => some (v + s)
    | _, _ => none

/-- `(~calc_sum + 1) & 0xFF` in Python: for a nonnegative `s` this is
`(-s) mod 256`. -/
def twosComp (s : Nat) : Nat := (256 - s % 256) % 256

/-! ## `parse_intel_hex` -/

/-- Errors of the parse phase.  `checksumMismatch`/`parseError` model
`HexValidationError` (carrying the information the Python message formats:
line number, stored ("expected") and computed ("got") checksum);
`uncaughtValueError` models the uncaught `ValueError` from `int(data, 16)`
evaluated outside the `try` block for a type-02/04 record with an empty data
field. -/
inductive HexError where
  | checksumMismatch (lineNum expected actual : Nat)
  | parseError (lineNum : Nat)
  | uncaughtValueError (lineNum : Nat)
deriving Repr, DecidableEq

/-- The fields of one record line, plus the checksum the parser recomputes. -/
structure RecordFields where
  byte_count : Nat
  address : Nat
  record_type : Nat
  data : List Char
  checksum : Nat
  calc_sum : Nat
deriving Repr, DecidableEq

/-- The `try` block of the per-line parse: the five slices, their hex
conversions, and the checksum recomputation; `none` models `ValueError`
(caught and re-raised as a parse error). -/
def parseRecordFields (line : List Char) : Option RecordFields :=
  match intHex? (pySlice line 1 3), intHex? (pySlice line 3 7),
        intHex? (pySlice line 7 9), intHex? (pySlice line (-2) line.length),
        chunkSum (pySlice line 9 (-2)) with
  | some byte_count, some address, some record_type, some checksum, some dsum =>
    some { byte_count := byte_count, address := address, record_type := record_type,
           data := pySlice line 9 (-2), checksum := checksum,
           calc_sum := twosComp (byte_count + (address >>> 8) + (address &&& 0xFF)
                                  + record_type + dsum) }
  | _, _, _, _, _ => none

/-- The mutable state of the parse loop.  `min_addr = none` models the
initial `float('inf')`. -/
structure PState where
  addresses : List (Nat × Nat)
  segments : List Nat
  min_addr : Option Nat
  max_addr : Nat
  total_bytes : Nat
  extended_addr : Nat
deriving Repr, DecidableEq

def initState : PState :=
  { addresses := [], segments := [], min_addr := none,
    max_addr := 0, total_bytes := 0, extended_addr := 0 }

/-- One iteration of the `for line in f` loop.  `.ok (st, true)` continues
with the new state, `.ok (st, false)` is the `break` on an end-of-file
record, `.error` aborts the parse. -/
def processLine (line_num : Nat) (st : PState) (raw : List Char) :
    Except HexError (PState × Bool) :=
  let line := pyStrip raw
  if line.head? ≠ some ':' then
    .ok (st, true)
  else
    match parseRecordFields line with
    | none => .error (.parseError line_num)
    | some f =>
      if f.calc_sum ≠ f.checksum then
        .error (.checksumMismatch line_num f.checksum f.calc_sum)
      else if f.record_type = 0x00 then
        let physical_addr := st.extended_addr + f.address
        let end_addr := physical_addr + f.byte_count
        .ok ({ st with
                addresses := st.addresses ++ [(physical_addr, end_addr)],
                min_addr := some (match st.min_addr with
                  | none => physical_addr
                  | some m => min m physical_addr),
                max_addr := max st.max_addr end_addr,
                total_bytes := st.total_bytes + f.byte_count }, true)
      else if f.record_type = 0x01 then
        .ok (st, false)
      else if f.record_type = 0x02 then
        match intHex? f.data with
        | none => .error (.uncaughtValueError line_num)
        | some segment =>
          .ok ({ st with extended_addr := segment <<< 4,
                         segments := st.segments ++ [segment <<< 4] }, true)
      else if f.record_type = 0x04 then
        match intHex? f.data with
        | none => .error (.uncaughtValueError line_num)
        | some upper =>
          .ok ({ st with extended_addr := upper <<< 16,
                         segments := st.segments ++ [upper <<< 16] }, true)
      else
        .ok (st, true)

def parseLinesFrom (line_num : Nat) (st : PState) :
    List (List Char) → Except HexError PState
  | [] => .ok st
  | l :: rest =>
    match processLine line_num st l with
    | .error e => .error e
    | .ok (st', true) => parseLinesFrom (line_num + 1) st' rest
    | .ok (st', false) => .ok st'

/-- The returned dict: `min_addr` defaulted to `0` when no data record was
seen (`if min_addr == float('inf'): min_addr = 0`). -/
structure HexData where
  addresses : List (Nat × Nat)
  min_addr : Nat
  max_addr : Nat
  total_bytes : Nat
  segments : List Nat
deriving Repr, DecidableEq

def finalize (st : PState) : HexData :=
  { addresses := st.addresses, min_addr := st.min_addr.getD 0,
    max_addr := st.max_addr, total_bytes := st.total_bytes,
    segments := st.segments }

/-- `parse_intel_hex`, over the file's list of lines. -/
def parse_intel_hex (lines : List String) : Except HexError HexData :=
  (parseLinesFrom 1 initState (lines.map String.toList)).map finalize

/-! ## Memory layout constants (module-level constants of `pre_upload_check.py`) -/

def FLASH_START : Nat := 0x00000000
def FLASH_END : Nat := 0x00100000
def BOOTLOADER_REGION_END : Nat := 0x00027000
def APPLICATION_START : Nat := 0x00027000
def CONFIG_REGION_START : Nat := 0x000FF000
def MAX_APPLICATION_SIZE : Nat := CONFIG_REGION_START - APPLICATION_START
def ABSOLUTE_MIN_ADDRESS : Nat := 0x00020000

/-! ## `validate_safety`

Each check is one contiguous block of the Python function; it produces one
`(check_name, passed, message)` tuple and possibly sets `critical_failure`.
We embed each check as a `Finding × Bool` (the finding and whether the block
sets `critical_failure`).  Message strings are reproduced except for
`{:,}` digit grouping and the `{:.1f}` float percentage of the size check,
which are rendered as plain decimal (no claim depends on those fragments). -/

def hexDigitUpper (n : Nat) : Char :=
  if n < 10 then Char.ofNat (48 + n) else Char.ofNat (55 + n)

def natToHexRev : Nat → Nat → List Char
  | 0, _ => []
  | fuel + 1, n =>
    if n = 0 then [] else hexDigitUpper (n % 16) :: natToHexRev fuel (n / 16)

/-- Python `f"0x{n:08X}"`. -/
def hex08 (n : Nat) : String :=
  let ds := (natToHexRev 16 n).reverse
  String.mk ('0' :: 'x' :: (List.replicate (8 - ds.length) '0' ++ ds))

structure Finding where
  name : String
  passed : Bool
  msg : String
deriving Repr, DecidableEq

/-- Check 1: minimum address (CRITICAL below the floor, warning below the
application start). -/
def checkMinAddress (min_addr : Nat) : Finding × Bool :=
  if min_addr < ABSOLUTE_MIN_ADDRESS then
    ({ name := "BOOTLOADER PROTECTION", passed := false,
       msg := "CRITICAL: Code starts at " ++ hex08 min_addr
              ++ ", below safe minimum " ++ hex08 ABSOLUTE_MIN_ADDRESS ++ "!" }, true)
  else if min_addr < APPLICATION_START then
    ({ name := "BOOTLOADER PROTECTION", passed := false,
       msg := "WARNING: Code at " ++ hex08 min_addr
              ++ " is below expected app start " ++ hex08 APPLICATION_START }, false)
  else
    ({ name := "BOOTLOADER PROTECTION", passed := true,
       msg := "OK - Code starts at " ++ hex08 min_addr ++ " (safe region)" }, false)

/-- Check 2: maximum address. -/
def checkMaxAddress (max_addr : Nat) : Finding × Bool :=
  if max_addr > FLASH_END then
    ({ name := "FLASH BOUNDS", passed := false,
       msg := "CRITICAL: Code extends to " ++ hex08 max_addr
              ++ ", beyond flash end " ++ hex08 FLASH_END ++ "!" }, true)
  else if max_addr > CONFIG_REGION_START then
    ({ name := "FLASH BOUNDS", passed := false,
       msg := "WARNING: Code at " ++ hex08 max_addr
              ++ " overlaps config region " ++ hex08 CONFIG_REGION_START }, false)
  else
    ({ name := "FLASH BOUNDS", passed := true,
       msg := "OK - Code ends at " ++ hex08 max_addr }, false)

/-- Check 3: total size.  `code_size = max_addr - min_addr` is Python int
subtraction, embedded as `Int`.  This check never sets `critical_failure`. -/
def checkAppSize (min_addr max_addr : Nat) : Finding × Bool :=
  let code_size : Int := (max_addr : Int) - (min_addr : Int)
  if code_size > (MAX_APPLICATION_SIZE : Int) then
    ({ name := "APPLICATION SIZE", passed := false,
       msg := "Code size " ++ toString code_size ++ " bytes exceeds max "
              ++ toString MAX_APPLICATION_SIZE ++ " bytes" }, false)
  else
    ({ name := "APPLICATION SIZE", passed := true,
       msg := "OK - " ++ toString code_size ++ " bytes (of "
              ++ toString MAX_APPLICATION_SIZE ++ " available)" }, false)

/-- Check 4: any data block whose start lies below `BOOTLOADER_REGION_END`
(CRITICAL if the filtered list is nonempty). -/
def checkBootloaderRegion (addresses : List (Nat × Nat)) : Finding × Bool :=
  let bootloader_writes := addresses.filter (fun b => decide (b.1 < BOOTLOADER_REGION_END))
  if bootloader_writes ≠ [] then
    ({ name := "BOOTLOADER REGION", passed := false,
       msg := "CRITICAL: " ++ toString bootloader_writes.length
              ++ " data blocks target bootloader region!" }, true)
  else
    ({ name := "BOOTLOADER REGION", passed := true,
       msg := "OK - No writes to bootloader region" }, false)

/-- Check 5: segment addresses, only emitted when the segment list is
nonempty; its failure is a warning (never sets `critical_failure`). -/
def checkSegments (segments : List Nat) : List Finding :=
  if segments = [] then []
  else if segments.all (fun s => decide (s ≥ ABSOLUTE_MIN_ADDRESS)) then
    [{ name := "SEGMENT ADDRESSES", passed := true,
       msg := "OK - " ++ toString segments.length ++ " segments, all in safe region" }]
  else
    [{ name := "SEGMENT ADDRESSES", passed := false,
       msg := "WARNING: Segments point to low addresses" }]

/-- The body of `validate_safety` up to the final `raise`: the assembled
findings list and the `critical_failure` flag. -/
def validateSafetyFull (hex_data : HexData) : List Finding × Bool :=
  let f1 := checkMinAddress hex_data.min_addr
  let f2 := checkMaxAddress hex_data.max_addr
  let f3 := checkAppSize hex_data.min_addr hex_data.max_addr
  let f4 := checkBootloaderRegion hex_data.addresses
  let f5 := checkSegments hex_data.segments
  (f1.1 :: f2.1 :: f3.1 :: f4.1 :: f5, f1.2 || f2.2 || f3.2 || f4.2)

def SafetyErrorMsg : String := "CRITICAL SAFETY FAILURES DETECTED - DO NOT UPLOAD"

/-- `validate_safety`: assemble every finding, then raise `SafetyError` (with
its fixed message; the findings list is not part of the exception) when any
check set `critical_failure`, else return the findings. -/
def validate_safety (hex_data : HexData) : Except String (List Finding) :=
  let r := validateSafetyFull hex_data
  if r.2 then .error SafetyErrorMsg else .ok r.1

/-- The validation portion of `pre_upload_check.main` (lines 496-547): exit 1
on a parse error or a `SafetyError`; otherwise exit 0 — both when every
finding passed and when warnings remain ("Warnings don't block upload, only
critical failures").  File lookup and the source-constant cross-check (pure
file-system concerns) are not modelled. -/
def mainValidationExit (lines : List String) : Nat :=
  match parse_intel_hex lines with
  | .error _ => 1
  | .ok hex_data =>
    match validate_safety hex_data with
    | .error _ => 1
    | .ok _ => 0

end PreUploadCheck

namespace Uf2Upload

open PreUploadCheck

/-! ## `uf2_upload.validate_hex` (lines 126-170)

Given the outcome of `pre_upload_check.parse_intel_hex` on the hex file, the
function returns `False` on a parse error, `False` when `validate_safety`
raises `SafetyError`, and otherwise `all(r[1] for r in results)` — i.e. it
returns `True` only when every finding passed, so warning-level findings also
make it return `False`.  `uf2_upload.main` blocks the upload (exit 1, "SAFETY
VALIDATION FAILED - Upload blocked") whenever `validate_hex` returns
`False`. -/

def validate_hex (parsed : Except HexError HexData) : Bool :=
  match parsed with
  | .error _ => false
  | .ok hex_data =>
    match validate_safety hex_data with
    | .error _ => false
    | .ok results => results.all (fun r => r.passed)

/-! ## `verify_reboot` (lines 1039-1084)

Two bounded polling loops.  Real time is abstracted into the poll index: an
observation function `Nat → Bool` gives the result of the i-th poll of each
loop, and the timeout becomes the poll budget (`t1`, `t2`); a loop that runs
out of budget models the `time.monotonic()` deadline expiring.  Stage 1 polls
for the identity marker file (`INFO_UF2.TXT`) to be gone from the mount
point; if it never is, return `False`.  Stage 2 polls for the serial port to
be back (by recorded device serial when available, else by port path; with
neither, the poll observes nothing); it returns `True` whether or not the
port reappears — the timeout case is the qualified success. -/

/-- First poll index in `[i, i+fuel)` at which `obs` holds, if any. -/
def firstPoll (obs : Nat → Bool) : Nat → Nat → Option Nat
  | _, 0 => none
  | i, fuel + 1 => if obs i then some i else firstPoll obs (i + 1) fuel

def verify_reboot (driveGone : Nat → Bool) (device_serial port : Option String)
    (serialFound portExists : Nat → Bool) (t1 t2 : Nat) : Bool :=
  match firstPoll driveGone 0 t1 with
  | none => false
  | some _ =>
    let stage2 : Nat → Bool := fun i =>
      match device_serial with
      | some _ => serialFound i
      | none =>
        match port with
        | some _ => portExists i
        | none => false
    match firstPoll stage2 0 t2 with
    | some _ => true
    | none => true

/-! ## `upload_parallel` result aggregation and `main`'s multi-device exit

The hardware phases of `upload_parallel` (bootloader entry, mount, copy,
reboot polling) record per-device outcomes in `mount_map` /
`device_serials` / `found`; the function's value is determined by those
per-device outcomes alone, which we capture in `DeviceInfo`.  The final
result-building loop (lines 1603-1620) and the early return when no drive
mounted (lines 1533-1536) are embedded verbatim; the interpolated new port
name inside the success message is not modelled. -/

structure DeviceInfo where
  /-- a UF2 block device was detected for this port (`mount_map[port]["block_dev"]`) -/
  block_dev : Bool
  /-- the block device was mounted (`mount_map[port]["mount_point"]`) -/
  mount_point : Bool
  /-- the firmware copy succeeded (`mount_map[port]["copied"]`) -/
  copied : Bool
  /-- the port reappeared after reboot (`port in found`) -/
  found : Bool
  /-- a device serial was recorded (`device_serials.get(port)`) -/
  has_serial : Bool
deriving Repr, DecidableEq

def perPortResult (port : String) (info : DeviceInfo) : String × Bool × String :=
  if !info.block_dev then (port, false, "failed to enter bootloader")
  else if !info.mount_point then (port, false, "mount failed")
  else if !info.copied then (port, false, "firmware copy failed")
  else if info.found then (port, true, "OK")
  else if info.has_serial then (port, false, "serial port not found after reboot")
  else (port, true, "OK (no serial tracking)")

def upload_parallel_results (ports : List String) (info : String → DeviceInfo) :
    List (String × Bool × String) :=
  if ports.all (fun p => !(info p).mount_point) then
    ports.map (fun p => (p, false, "mount failed"))
  else
    ports.map (fun p => perPortResult p (info p))

/-- `main`'s multi-device summary exit (lines 1751-1766): count the
successes; exit 0 when all devices succeeded, else exit 1. -/
def multi_device_exit (results : List (String × Bool × String)) : Nat :=
  let succeeded := (results.filter (fun r => r.2.1)).length
  if succeeded = results.length then 0 else 1

/-- Success of one device as a function of its own outcomes (the value the
result-building chain assigns). -/
def deviceSuccess (info : DeviceInfo) : Bool :=
  info.block_dev && info.mount_point && info.copied && (info.found || !info.has_serial)

end Uf2Upload

namespace IntelHex

open PreUploadCheck

/-! ## Abstract records and their canonical encoding

For the refinement claims about the parser we work with an abstract record
stream and its canonical Intel-HEX encoding (`:BBAAAATTDD...CC`, uppercase
hex, correct two's-complement checksum).  `refParse` is the spec-side
reference semantics, written from the spec's words: an extended-address
accumulator starting at 0, set to `segment <<< 4` by a type-02 record and to
`upper16 <<< 16` by a type-04 record, each value recorded in the segment
list; each data record contributes the block
`(acc + addr, acc + addr + byteCount)`; parsing stops at the first
end-of-file record. -/

inductive IRecord where
  | data (addr : Nat) (bytes : List Nat)
  | eof
  | extSeg (v : Nat)
  | extLin (v : Nat)
deriving Repr, DecidableEq

def wfRecord : IRecord → Prop
  | .data addr bytes => addr < 65536 ∧ bytes.length < 256 ∧ ∀ b ∈ bytes, b < 256
  | .eof => True
  | .extSeg v => v < 65536
  | .extLin v => v < 65536

instance instDecWf : (r : IRecord) → Decidable (wfRecord r)
  | .data _ bytes => inferInstanceAs (Decidable (_ ∧ _ ∧ ∀ b ∈ bytes, _))
  | .eof => inferInstanceAs (Decidable True)
  | .extSeg _ => inferInstanceAs (Decidable (_ < _))
  | .extLin _ => inferInstanceAs (Decidable (_ < _))

/-- Wire-level fields of a record: byte count, 16-bit address, type code,
payload bytes. -/
def recFields : IRecord → Nat × Nat × Nat × List Nat
  | .data addr bytes => (bytes.length, addr, 0x00, bytes)
  | .eof => (0, 0, 0x01, [])
  | .extSeg v => (2, 0, 0x02, [v / 256, v % 256])
  | .extLin v => (2, 0, 0x04, [v / 256, v % 256])

/-- The record's correct checksum byte. -/
def recChecksum (r : IRecord) : Nat :=
  let (bc, addr, rt, bytes) := recFields r
  twosComp (bc + addr / 256 + addr % 256 + rt + bytes.sum)

def hexByte (n : Nat) : List Char :=
  [hexDigitUpper (n / 16 % 16), hexDigitUpper (n % 16)]

def hexWord (n : Nat) : List Char := hexByte (n / 256) ++ hexByte (n % 256)

/-- Canonical encoding of a record, with an explicitly chosen checksum byte
(used to state what happens on a corrupted checksum). -/
def encodeWithCk (r : IRecord) (ck : Nat) : List Char :=
  let (bc, addr, rt, bytes) := recFields r
  ':' :: (hexByte bc ++ hexWord addr ++ hexByte rt
          ++ (bytes.map hexByte).flatten ++ hexByte ck)

/-- Canonical encoding with the correct checksum. -/
def encodeRecord (r : IRecord) : List Char := encodeWithCk r (recChecksum r)

/-- Spec-side reference semantics of a record stream (blocks, segments),
given the current extended-address accumulator. -/
def refParse (ext : Nat) : List IRecord → List (Nat × Nat) × List Nat
  | [] => ([], [])
  | .data addr bytes :: rest =>
    let r := refParse ext rest
    ((ext + addr, ext + addr + bytes.length) :: r.1, r.2)
  | .eof :: _ => ([], [])
  | .extSeg v :: rest =>
    let r := refParse (v <<< 4) rest
    (r.1, (v <<< 4) :: r.2)
  | .extLin v :: rest =>
    let r := refParse (v <<< 16) rest
    (r.1, (v <<< 16) :: r.2)

/-- The parser's state transition for one abstract record (what
`processLine` does to the state on the corresponding well-formed line);
the `Bool` is the continue flag. -/
def recStep (st : PState) : IRecord → PState × Bool
  | .data addr bytes =>
    let physical_addr := st.extended_addr + addr
    let end_addr := physical_addr + bytes.length
    ({ st with
        addresses := st.addresses ++ [(physical_addr, end_addr)],
        min_addr := some (match st.min_addr with
          | none => physical_addr
          | some m => min m physical_addr),
        max_addr := max st.max_addr end_addr,
        total_bytes := st.total_bytes + bytes.length }, true)
  | .eof => (st, false)
  | .extSeg v =>
    ({ st with extended_addr := v <<< 4,
               segments := st.segments ++ [v <<< 4] }, true)
  | .extLin v =>
    ({ st with extended_addr := v <<< 16,
               segments := st.segments ++ [v <<< 16] }, true)

/-- Folding `recStep` over a record stream, honouring the continue flag. -/
def stateAfter (st : PState) : List IRecord → PState
  | [] => st
  | r :: rest =>
    let s := recStep st r
    if s.2 then stateAfter s.1 rest else s.1

end IntelHex

/-! # Proof development -/

namespace IntelHex

open PreUploadCheck

/-! ## Decoding the canonical encoding -/

theorem hexVal?_hexDigitUpper (m : Nat) (h : m < 16) :
    hexVal? (hexDigitUpper m) = some m := by
  interval_cases m <;> decide

theorem intHexCore_append : ∀ (xs : List Char) (acc : Nat) (ys : List Char),
    intHexCore acc (xs ++ ys) = (intHexCore acc xs).bind (fun a => intHexCore a ys)
  | [], _, _ => rfl
  | x :: xs, acc, ys => by
    simp only [List.cons_append, intHexCore]
    cases hexVal? x with
    | none => rfl
    | some d => exact intHexCore_append xs _ ys

theorem intHexCore_hexByte (acc n : Nat) (h : n < 256) :
    intHexCore acc (hexByte n) = some (256 * acc + n) := by
  have h16 : (16 : Nat) > 0 := by norm_num
  have d1 := hexVal?_hexDigitUpper (n / 16 % 16) (Nat.mod_lt _ h16)
  have d2 := hexVal?_hexDigitUpper (n % 16) (Nat.mod_lt _ h16)
  simp only [hexByte, intHexCore, d1, d2]
  congr 1
  omega

theorem intHex?_hexByte (n : Nat) (h : n < 256) : intHex? (hexByte n) = some n := by
  have hne : hexByte n ≠ [] := by simp [hexByte]
  rw [intHex?, if_neg hne]
  simpa using intHexCore_hexByte 0 n h

theorem intHex?_hexWord (n : Nat) (h : n < 65536) : intHex? (hexWord n) = some n := by
  have h1 : n / 256 < 256 := by omega
  have h2 : n % 256 < 256 := Nat.mod_lt _ (by norm_num)
  have happ := intHexCore_append (hexByte (n / 256)) 0 (hexByte (n % 256))
  rw [intHexCore_hexByte 0 _ h1] at happ
  rw [show Option.bind (some (256 * 0 + n / 256)) (fun a => intHexCore a (hexByte (n % 256)))
        = intHexCore (256 * 0 + n / 256) (hexByte (n % 256)) from rfl,
      intHexCore_hexByte _ _ h2] at happ
  have hne : hexWord n ≠ [] := by simp [hexWord, hexByte]
  rw [intHex?, if_neg hne, hexWord, happ]
  congr 1
  omega

theorem chunkSum_flatten : ∀ (bytes : List Nat), (∀ b ∈ bytes, b < 256) →
    chunkSum ((bytes.map hexByte).flatten) = some bytes.sum
  | [], _ => rfl
  | b :: bs, h => by
    have hb : b < 256 := h b (by simp)
    have ih := chunkSum_flatten bs (fun x hx => h x (by simp [hx]))
    have hdec : intHex? [hexDigitUpper (b / 16 % 16), hexDigitUpper (b % 16)] = some b := by
      simpa [hexByte] using intHex?_hexByte b hb
    show chunkSum (hexDigitUpper (b / 16 % 16) :: hexDigitUpper (b % 16)
          :: (List.map hexByte bs).flatten) = some ((b :: bs).sum)
    simp only [chunkSum, hdec, ih, List.sum_cons]

theorem flatten_hexByte_length (bytes : List Nat) :
    ((bytes.map hexByte).flatten).length = 2 * bytes.length := by
  induction bytes with
  | nil => rfl
  | cons b bs ih => simp [hexByte, ih]; omega

/-! ## Encoded lines contain no whitespace, so `strip` leaves them alone -/

theorem hexDigitUpper_not_ws (m : Nat) (h : m < 16) :
    (hexDigitUpper m).isWhitespace = false := by
  interval_cases m <;> decide

theorem mem_hexByte_not_ws (c : Char) (n : Nat) (h : c ∈ hexByte n) :
    c.isWhitespace = false := by
  have h16 : (16 : Nat) > 0 := by norm_num
  simp only [hexByte, List.mem_cons, List.mem_singleton, List.not_mem_nil, or_false] at h
  rcases h with h | h <;> subst h <;> exact hexDigitUpper_not_ws _ (Nat.mod_lt _ h16)

theorem dropWhile_eq_self_of (p : Char → Bool) :
    ∀ (l : List Char), (∀ c ∈ l, p c = false) → l.dropWhile p = l
  | [], _ => rfl
  | c :: cs, h => by
    simp [List.dropWhile_cons, h c (by simp)]

theorem pyStrip_eq_self (l : List Char) (h : ∀ c ∈ l, c.isWhitespace = false) :
    pyStrip l = l := by
  unfold pyStrip
  rw [dropWhile_eq_self_of _ l h,
      dropWhile_eq_self_of _ l.reverse (fun c hc => h c (List.mem_reverse.mp hc)),
      List.reverse_reverse]

/-- The raw shape of every encoded line. -/
def encShape (bc addr rt ck : Nat) (bytes : List Nat) : List Char :=
  ':' :: (hexByte bc ++ hexWord addr ++ hexByte rt
          ++ (bytes.map hexByte).flatten ++ hexByte ck)

theorem mem_encShape (bc addr rt ck : Nat) (bytes : List Nat) (c : Char)
    (hc : c ∈ encShape bc addr rt ck bytes) : c = ':' ∨ ∃ n, c ∈ hexByte n := by
  simp only [encShape, List.mem_cons, List.mem_append, List.mem_flatten, List.mem_map,
    hexWord] at hc
  rcases hc with h | ((((h | (h | h)) | h) | ⟨l, ⟨n, _, rfl⟩, h⟩) | h)
  · exact Or.inl h
  all_goals exact Or.inr ⟨_, h⟩

theorem encShape_no_ws (bc addr rt ck : Nat) (bytes : List Nat) :
    ∀ c ∈ encShape bc addr rt ck bytes, c.isWhitespace = false := by
  intro c hc
  rcases mem_encShape bc addr rt ck bytes c hc with rfl | ⟨n, hn⟩
  · decide
  · exact mem_hexByte_not_ws c n hn

theorem encShape_length (bc addr rt ck : Nat) (bytes : List Nat) :
    (encShape bc addr rt ck bytes).length = 11 + 2 * bytes.length := by
  simp only [encShape, List.length_cons, List.length_append, flatten_hexByte_length,
    hexByte, hexWord, List.length_nil]
  omega

theorem pyIndex_nonneg (len : Nat) (i : Int) (h : 0 ≤ i) :
    pyIndex len i = min i.toNat len := by
  simp [pyIndex, not_lt.mpr h]

theorem pyIndex_neg_two (len : Nat) (h : 2 ≤ len) : pyIndex len (-2) = len - 2 := by
  have : ((-2 : Int) < 0) := by norm_num
  simp only [pyIndex, if_pos this]
  omega

/-- The five slices `line[1:3]`, `line[3:7]`, `line[7:9]`, `line[9:-2]`,
`line[-2:]` of an encoded line recover its fields. -/
theorem encShape_slices (bc addr rt ck : Nat) (bytes : List Nat) :
    pySlice (encShape bc addr rt ck bytes) 1 3 = hexByte bc ∧
    pySlice (encShape bc addr rt ck bytes) 3 7 = hexWord addr ∧
    pySlice (encShape bc addr rt ck bytes) 7 9 = hexByte rt ∧
    pySlice (encShape bc addr rt ck bytes) 9 (-2) = (bytes.map hexByte).flatten ∧
    pySlice (encShape bc addr rt ck bytes) (-2)
      ((encShape bc addr rt ck bytes).length : Int) = hexByte ck := by
  set k := bytes.length with hk
  set flat := (bytes.map hexByte).flatten with hflat
  set line := encShape bc addr rt ck bytes with hline
  have hL : line.length = 11 + 2 * k := encShape_length bc addr rt ck bytes
  have hflatlen : flat.length = 2 * k := flatten_hexByte_length bytes
  have hdrop1 : line.drop 1
      = hexByte bc ++ (hexWord addr ++ (hexByte rt ++ (flat ++ hexByte ck))) := by
    rw [hline]
    simp [encShape, List.append_assoc]
  have hdrop3 : line.drop 3 = hexWord addr ++ (hexByte rt ++ (flat ++ hexByte ck)) := by
    have h3 : line.drop 3 = (line.drop 1).drop 2 := by rw [List.drop_drop]
    rw [h3, hdrop1]
    exact List.drop_left' rfl
  have hdrop7 : line.drop 7 = hexByte rt ++ (flat ++ hexByte ck) := by
    have h7 : line.drop 7 = (line.drop 3).drop 4 := by rw [List.drop_drop]
    rw [h7, hdrop3]
    exact List.drop_left' rfl
  have hdrop9 : line.drop 9 = flat ++ hexByte ck := by
    have h9 : line.drop 9 = (line.drop 7).drop 2 := by rw [List.drop_drop]
    rw [h9, hdrop7]
    exact List.drop_left' rfl
  have p1 : pyIndex line.length 1 = 1 := by
    rw [pyIndex_nonneg _ _ (by norm_num), hL]
    norm_num
    omega
  have p3 : pyIndex line.length 3 = 3 := by
    rw [pyIndex_nonneg _ _ (by norm_num), hL]
    omega
  have p7 : pyIndex line.length 7 = 7 := by
    rw [pyIndex_nonneg _ _ (by norm_num), hL]
    omega
  have p9 : pyIndex line.length 9 = 9 := by
    rw [pyIndex_nonneg _ _ (by norm_num), hL]
    omega
  have pneg : pyIndex line.length (-2) = 9 + 2 * k := by
    rw [pyIndex_neg_two _ (by omega), hL]
    omega
  have pLen : pyIndex line.length (line.length : Int) = line.length := by
    rw [pyIndex_nonneg _ _ (by positivity)]
    simp
  refine ⟨?_, ?_, ?_, ?_, ?_⟩
  · show (line.take (pyIndex line.length 3)).drop (pyIndex line.length 1) = hexByte bc
    rw [p1, p3, List.drop_take, hdrop1]
    exact List.take_left' rfl
  · show (line.take (pyIndex line.length 7)).drop (pyIndex line.length 3) = hexWord addr
    rw [p3, p7, List.drop_take, hdrop3]
    exact List.take_left' rfl
  · show (line.take (pyIndex line.length 9)).drop (pyIndex line.length 7) = hexByte rt
    rw [p7, p9, List.drop_take, hdrop7]
    exact List.take_left' rfl
  · show (line.take (pyIndex line.length (-2))).drop (pyIndex line.length 9) = flat
    rw [p9, pneg, List.drop_take, hdrop9]
    have h29 : 9 + 2 * k - 9 = 2 * k := by omega
    rw [h29]
    exact List.take_left' hflatlen
  · show (line.take (pyIndex line.length (line.length : Int))).drop
        (pyIndex line.length (-2)) = hexByte ck
    rw [pLen, pneg, List.take_length]
    have h9k : line.drop (9 + 2 * k) = (line.drop 9).drop (2 * k) := by
      rw [List.drop_drop]
    rw [h9k, hdrop9]
    exact List.drop_left' hflatlen

/-! ## `parseRecordFields` and `processLine` on encoded lines -/

theorem twosComp_lt (s : Nat) : twosComp s < 256 :=
  Nat.mod_lt _ (by norm_num)

theorem parseRecordFields_encShape (bc addr rt ck : Nat) (bytes : List Nat)
    (hbc : bc < 256) (haddr : addr < 65536) (hrt : rt < 256) (hck : ck < 256)
    (hbytes : ∀ b ∈ bytes, b < 256) :
    parseRecordFields (encShape bc addr rt ck bytes) =
      some { byte_count := bc, address := addr, record_type := rt,
             data := (bytes.map hexByte).flatten, checksum := ck,
             calc_sum := twosComp (bc + addr / 256 + addr % 256 + rt + bytes.sum) } := by
  obtain ⟨s1, s2, s3, s4, s5⟩ := encShape_slices bc addr rt ck bytes
  have hsr : addr >>> 8 = addr / 256 := by
    rw [Nat.shiftRight_eq_div_pow]
  have hand : addr &&& 0xFF = addr % 256 := by
    have := Nat.and_pow_two_sub_one_eq_mod addr 8
    norm_num at this
    exact this
  simp only [parseRecordFields, s1, s2, s3, s4, s5,
    intHex?_hexByte bc hbc, intHex?_hexWord addr haddr, intHex?_hexByte rt hrt,
    intHex?_hexByte ck hck, chunkSum_flatten bytes hbytes, hsr, hand]

theorem recFields_encodeWithCk (r : IRecord) (ck : Nat) :
    encodeWithCk r ck =
      encShape (recFields r).1 (recFields r).2.1 (recFields r).2.2.1 ck
        (recFields r).2.2.2 := by
  cases r <;> rfl

theorem recChecksum_eq (r : IRecord) :
    recChecksum r = twosComp ((recFields r).1 + (recFields r).2.1 / 256
      + (recFields r).2.1 % 256 + (recFields r).2.2.1 + ((recFields r).2.2.2).sum) := by
  cases r <;> rfl

theorem recChecksum_lt (r : IRecord) : recChecksum r < 256 := by
  rw [recChecksum_eq]
  exact twosComp_lt _

theorem recFields_bounds (r : IRecord) (h : wfRecord r) :
    (recFields r).1 < 256 ∧ (recFields r).2.1 < 65536 ∧ (recFields r).2.2.1 < 256 ∧
      ∀ b ∈ (recFields r).2.2.2, b < 256 := by
  cases r with
  | data addr bytes =>
    obtain ⟨h1, h2, h3⟩ := h
    exact ⟨h2, h1, by norm_num [recFields], h3⟩
  | eof =>
    refine ⟨by norm_num [recFields], by norm_num [recFields], by norm_num [recFields], ?_⟩
    intro b hb
    simp [recFields] at hb
  | extSeg v =>
    refine ⟨by norm_num [recFields], by norm_num [recFields], by norm_num [recFields], ?_⟩
    intro b hb
    have hv : v < 65536 := h
    simp only [recFields, List.mem_cons, List.mem_singleton, List.not_mem_nil,
      or_false] at hb
    rcases hb with rfl | rfl <;> omega
  | extLin v =>
    refine ⟨by norm_num [recFields], by norm_num [recFields], by norm_num [recFields], ?_⟩
    intro b hb
    have hv : v < 65536 := h
    simp only [recFields, List.mem_cons, List.mem_singleton, List.not_mem_nil,
      or_false] at hb
    rcases hb with rfl | rfl <;> omega

theorem parseRecordFields_encodeWithCk (r : IRecord) (ck : Nat)
    (hr : wfRecord r) (hck : ck < 256) :
    parseRecordFields (encodeWithCk r ck) =
      some { byte_count := (recFields r).1, address := (recFields r).2.1,
             record_type := (recFields r).2.2.1,
             data := (((recFields r).2.2.2).map hexByte).flatten,
             checksum := ck, calc_sum := recChecksum r } := by
  obtain ⟨h1, h2, h3, h4⟩ := recFields_bounds r hr
  rw [recFields_encodeWithCk,
    parseRecordFields_encShape _ _ _ _ _ h1 h2 h3 hck h4, recChecksum_eq]

theorem pyStrip_encodeWithCk (r : IRecord) (ck : Nat) :
    pyStrip (encodeWithCk r ck) = encodeWithCk r ck := by
  rw [recFields_encodeWithCk]
  exact pyStrip_eq_self _ (encShape_no_ws _ _ _ _ _)

theorem head?_encodeWithCk (r : IRecord) (ck : Nat) :
    (encodeWithCk r ck).head? = some ':' := by
  rw [recFields_encodeWithCk]
  rfl

/-- A record line carrying any wrong checksum byte makes `processLine` raise
the checksum-mismatch error (with the stored byte reported as "expected" and
the recomputed one as "got", exactly as the Python message does). -/
theorem processLine_encodeWithCk_bad (n : Nat) (st : PState) (r : IRecord) (ck : Nat)
    (hr : wfRecord r) (hck : ck < 256) (hne : ck ≠ recChecksum r) :
    processLine n st (encodeWithCk r ck) =
      .error (.checksumMismatch n ck (recChecksum r)) := by
  unfold processLine
  rw [pyStrip_encodeWithCk]
  dsimp only
  rw [head?_encodeWithCk, if_neg (by simp),
    parseRecordFields_encodeWithCk r ck hr hck]
  dsimp only
  rw [if_pos (Ne.symm hne)]

/-- A correctly checksummed record line makes `processLine` perform exactly
the `recStep` state transition. -/
theorem processLine_encodeRecord (n : Nat) (st : PState) (r : IRecord)
    (hr : wfRecord r) :
    processLine n st (encodeRecord r) = .ok (recStep st r) := by
  unfold processLine encodeRecord
  rw [pyStrip_encodeWithCk]
  dsimp only
  rw [head?_encodeWithCk, if_neg (by simp),
    parseRecordFields_encodeWithCk r _ hr (recChecksum_lt r)]
  dsimp only
  rw [if_neg (by simp)]
  cases r with
  | data addr bytes =>
    simp [recFields, recStep]
  | eof =>
    simp [recFields, recStep]
  | extSeg v =>
    have hv : v < 65536 := hr
    simp only [recFields]
    norm_num
    rw [show hexByte (v / 256) ++ hexByte (v % 256) = hexWord v from rfl,
      intHex?_hexWord v hv]
    simp [recStep]
  | extLin v =>
    have hv : v < 65536 := hr
    simp only [recFields]
    norm_num
    rw [show hexByte (v / 256) ++ hexByte (v % 256) = hexWord v from rfl,
      intHex?_hexWord v hv]
    simp [recStep]

/-! ## Stream-level refinement -/

theorem parseLinesFrom_encode : ∀ (records : List IRecord) (n : Nat) (st : PState),
    (∀ r ∈ records, wfRecord r) →
    parseLinesFrom n st (records.map encodeRecord) = .ok (stateAfter st records)
  | [], _, _, _ => rfl
  | r :: rs, n, st, h => by
    have hr : wfRecord r := h r (by simp)
    have hrs : ∀ x ∈ rs, wfRecord x := fun x hx => h x (by simp [hx])
    simp only [List.map_cons, parseLinesFrom, processLine_encodeRecord n st r hr]
    cases r with
    | eof => rfl
    | data addr bytes => exact parseLinesFrom_encode rs (n + 1) _ hrs
    | extSeg v => exact parseLinesFrom_encode rs (n + 1) _ hrs
    | extLin v => exact parseLinesFrom_encode rs (n + 1) _ hrs

theorem stateAfter_ref : ∀ (records : List IRecord) (st : PState),
    (stateAfter st records).addresses
        = st.addresses ++ (refParse st.extended_addr records).1 ∧
      (stateAfter st records).segments
        = st.segments ++ (refParse st.extended_addr records).2
  | [], st => by simp [stateAfter, refParse]
  | .data addr bytes :: rs, st => by
    have ih := stateAfter_ref rs
      { st with
          addresses := st.addresses
            ++ [(st.extended_addr + addr, st.extended_addr + addr + bytes.length)],
          min_addr := some (match st.min_addr with
            | none => st.extended_addr + addr
            | some m => min m (st.extended_addr + addr)),
          max_addr := max st.max_addr (st.extended_addr + addr + bytes.length),
          total_bytes := st.total_bytes + bytes.length }
    dsimp [stateAfter, recStep, refParse]
    dsimp at ih
    rw [ih.1, ih.2]
    simp [List.append_assoc]
  | .eof :: rs, st => by
    dsimp [stateAfter, recStep, refParse]
    simp
  | .extSeg v :: rs, st => by
    have ih := stateAfter_ref rs
      { st with extended_addr := v <<< 4, segments := st.segments ++ [v <<< 4] }
    dsimp [stateAfter, recStep, refParse]
    dsimp at ih
    rw [ih.1, ih.2]
    simp [List.append_assoc]
  | .extLin v :: rs, st => by
    have ih := stateAfter_ref rs
      { st with extended_addr := v <<< 16, segments := st.segments ++ [v <<< 16] }
    dsimp [stateAfter, recStep, refParse]
    dsimp at ih
    rw [ih.1, ih.2]
    simp [List.append_assoc]

theorem parse_intel_hex_encode (records : List IRecord)
    (h : ∀ r ∈ records, wfRecord r) :
    parse_intel_hex (records.map (fun r => String.mk (encodeRecord r))) =
      .ok (finalize (stateAfter initState records)) := by
  unfold parse_intel_hex
  have hm : (records.map (fun r => String.mk (encodeRecord r))).map String.toList
      = records.map encodeRecord := by
    rw [List.map_map]
    exact List.map_congr_left (fun r _ => rfl)
  rw [hm, parseLinesFrom_encode records 1 initState h]
  rfl

end IntelHex

namespace PreUploadCheck

/-! ## Structure of `validate_safety` -/

theorem validateSafetyFull_fst (hd : HexData) :
    (validateSafetyFull hd).1 =
      (checkMinAddress hd.min_addr).1 :: (checkMaxAddress hd.max_addr).1
        :: (checkAppSize hd.min_addr hd.max_addr).1
        :: (checkBootloaderRegion hd.addresses).1 :: checkSegments hd.segments := rfl

theorem validateSafetyFull_snd (hd : HexData) :
    (validateSafetyFull hd).2 =
      ((checkMinAddress hd.min_addr).2 || (checkMaxAddress hd.max_addr).2
        || (checkAppSize hd.min_addr hd.max_addr).2
        || (checkBootloaderRegion hd.addresses).2) := rfl

theorem checkAppSize_never_critical (a b : Nat) : (checkAppSize a b).2 = false := by
  unfold checkAppSize
  dsimp only
  split <;> rfl

theorem validate_safety_of_critical (hd : HexData)
    (h : (validateSafetyFull hd).2 = true) :
    validate_safety hd = .error SafetyErrorMsg := by
  unfold validate_safety
  dsimp only
  rw [h]
  rfl

theorem validate_safety_of_no_critical (hd : HexData)
    (h : (validateSafetyFull hd).2 = false) :
    validate_safety hd = .ok (validateSafetyFull hd).1 := by
  unfold validate_safety
  dsimp only
  rw [h]
  rfl

/-! ## Parse-loop invariant: no data record means zeroed aggregates -/

theorem processLine_preserves_empty (n : Nat) (st : PState) (raw : List Char)
    (st' : PState) (b : Bool) (h : processLine n st raw = .ok (st', b)) :
    (st'.addresses = st.addresses ∧ st'.min_addr = st.min_addr ∧
      st'.max_addr = st.max_addr ∧ st'.total_bytes = st.total_bytes)
    ∨ st'.addresses ≠ [] := by
  unfold processLine at h
  by_cases h1 : (pyStrip raw).head? ≠ some ':'
  · rw [if_pos h1] at h
    simp only [Except.ok.injEq, Prod.mk.injEq] at h
    rw [← h.1]
    exact Or.inl ⟨rfl, rfl, rfl, rfl⟩
  · rw [if_neg h1] at h
    cases hp : parseRecordFields (pyStrip raw) with
    | none =>
      rw [hp] at h
      simp at h
    | some f =>
      rw [hp] at h
      dsimp only at h
      by_cases h2 : f.calc_sum ≠ f.checksum
      · rw [if_pos h2] at h
        simp at h
      · rw [if_neg h2] at h
        by_cases h3 : f.record_type = 0x00
        · rw [if_pos h3] at h
          simp only [Except.ok.injEq, Prod.mk.injEq] at h
          refine Or.inr ?_
          rw [← h.1]
          simp
        · rw [if_neg h3] at h
          by_cases h4 : f.record_type = 0x01
          · rw [if_pos h4] at h
            simp only [Except.ok.injEq, Prod.mk.injEq] at h
            rw [← h.1]
            exact Or.inl ⟨rfl, rfl, rfl, rfl⟩
          · rw [if_neg h4] at h
            by_cases h5 : f.record_type = 0x02
            · rw [if_pos h5] at h
              cases hseg : intHex? f.data with
              | none => rw [hseg] at h; simp at h
              | some segment =>
                rw [hseg] at h
                simp only [Except.ok.injEq, Prod.mk.injEq] at h
                rw [← h.1]
                exact Or.inl ⟨rfl, rfl, rfl, rfl⟩
            · rw [if_neg h5] at h
              by_cases h6 : f.record_type = 0x04
              · rw [if_pos h6] at h
                cases hseg : intHex? f.data with
                | none => rw [hseg] at h; simp at h
                | some upper =>
                  rw [hseg] at h
                  simp only [Except.ok.injEq, Prod.mk.injEq] at h
                  rw [← h.1]
                  exact Or.inl ⟨rfl, rfl, rfl, rfl⟩
              · rw [if_neg h6] at h
                simp only [Except.ok.injEq, Prod.mk.injEq] at h
                rw [← h.1]
                exact Or.inl ⟨rfl, rfl, rfl, rfl⟩

theorem parseLinesFrom_empty_inv : ∀ (lines : List (List Char)) (n : Nat)
    (st st' : PState),
    parseLinesFrom n st lines = .ok st' →
    (st.addresses = [] → st.min_addr = none ∧ st.max_addr = 0 ∧ st.total_bytes = 0) →
    (st'.addresses = [] → st'.min_addr = none ∧ st'.max_addr = 0 ∧ st'.total_bytes = 0)
  | [], n, st, st', h, hP => by
    simp only [parseLinesFrom, Except.ok.injEq] at h
    rw [← h]
    exact hP
  | l :: rest, n, st, st', h, hP => by
    rw [parseLinesFrom] at h
    cases hp : processLine n st l with
    | error e =>
      rw [hp] at h
      simp at h
    | ok p =>
      obtain ⟨st1, b⟩ := p
      cases b with
      | false =>
        rw [hp] at h
        simp only [Except.ok.injEq] at h
        subst h
        intro hA
        rcases processLine_preserves_empty n st l st1 false hp with ⟨e1, e2, e3, e4⟩ | hne
        · rw [e2, e3, e4]
          exact hP (by rw [← e1]; exact hA)
        · exact absurd hA hne
      | true =>
        rw [hp] at h
        refine parseLinesFrom_empty_inv rest (n + 1) st1 st' h ?_
        intro hA1
        rcases processLine_preserves_empty n st l st1 true hp with ⟨e1, e2, e3, e4⟩ | hne
        · rw [e2, e3, e4]
          exact hP (by rw [← e1]; exact hA1)
        · exact absurd hA1 hne

end PreUploadCheck

namespace Uf2Upload

/-! ## Result aggregation and polling helpers -/

theorem perPortResult_fst (port : String) (info : DeviceInfo) :
    (perPortResult port info).1 = port := by
  unfold perPortResult
  obtain ⟨bd, mp, cp, fd, hs⟩ := info
  cases bd <;> cases mp <;> cases cp <;> cases fd <;> cases hs <;> rfl

theorem perPortResult_success (port : String) (info : DeviceInfo) :
    (perPortResult port info).2.1 = deviceSuccess info := by
  unfold perPortResult deviceSuccess
  obtain ⟨bd, mp, cp, fd, hs⟩ := info
  cases bd <;> cases mp <;> cases cp <;> cases fd <;> cases hs <;> rfl

theorem multi_device_exit_eq_zero_iff (rs : List (String × Bool × String)) :
    multi_device_exit rs = 0 ↔ ∀ r ∈ rs, r.2.1 = true := by
  unfold multi_device_exit
  by_cases hc : (rs.filter (fun r => r.2.1)).length = rs.length
  · rw [if_pos hc]
    constructor
    · intro _ r hr
      exact List.filter_length_eq_length.mp hc r hr
    · intro _
      rfl
  · rw [if_neg hc]
    constructor
    · intro h
      exact absurd h (by norm_num)
    · intro hall
      exact absurd (List.filter_length_eq_length.mpr hall) hc

theorem firstPoll_eq_none : ∀ (fuel i : Nat) (obs : Nat → Bool),
    firstPoll obs i fuel = none ↔ ∀ j, i ≤ j → j < i + fuel → obs j = false
  | 0, i, obs => by
    constructor
    · intro _ j h1 h2
      exact absurd h2 (by omega)
    · intro _
      rfl
  | fuel + 1, i, obs => by
    rw [firstPoll]
    by_cases h : obs i = true
    · rw [if_pos h]
      constructor
      · intro hfalse
        exact absurd hfalse (by simp)
      · intro hall
        have := hall i le_rfl (by omega)
        rw [h] at this
        exact absurd this (by simp)
    · have hf : obs i = false := by simpa using h
      rw [if_neg h, firstPoll_eq_none fuel (i + 1) obs]
      constructor
      · intro hall j h1 h2
        rcases Nat.eq_or_lt_of_le h1 with rfl | hlt
        · exact hf
        · exact hall j (by omega) (by omega)
      · intro hall j h1 h2
        exact hall j (by omega) (by omega)

end Uf2Upload

/-! # Claims -/

section Claims

open PreUploadCheck IntelHex Uf2Upload

/-- C1: a data block whose address range overlaps the bootloader region
`[0, 0x27000)` makes the BOOTLOADER REGION finding fail and set
`critical_failure` (so `validate_safety` raises `SafetyError`), for every
parse result and regardless of the other blocks; and when no block starts
below `0x27000` that finding is a pass.  (A nonempty block `[s, e)` overlaps
`[0, 0x27000)` exactly when `s < e` and `s < 0x27000`.) -/
theorem c1_bootloader_region_overlap_is_critical (hd : HexData) :
    ((∃ b ∈ hd.addresses, b.1 < b.2 ∧ b.1 < BOOTLOADER_REGION_END) →
      (checkBootloaderRegion hd.addresses).1.passed = false ∧
      (checkBootloaderRegion hd.addresses).2 = true ∧
      validate_safety hd = .error SafetyErrorMsg) ∧
    ((∀ b ∈ hd.addresses, ¬ b.1 < BOOTLOADER_REGION_END) →
      (checkBootloaderRegion hd.addresses).1.passed = true ∧
      (checkBootloaderRegion hd.addresses).2 = false) := by
  constructor
  · rintro ⟨b, hb, _, hover⟩
    have hmem : b ∈ hd.addresses.filter (fun b => decide (b.1 < BOOTLOADER_REGION_END)) :=
      List.mem_filter.mpr ⟨hb, by simpa using hover⟩
    have hne : hd.addresses.filter (fun b => decide (b.1 < BOOTLOADER_REGION_END)) ≠ [] :=
      List.ne_nil_of_mem hmem
    have h2 : (checkBootloaderRegion hd.addresses).2 = true := by
      unfold checkBootloaderRegion
      dsimp only
      rw [if_pos hne]
    have h1 : (checkBootloaderRegion hd.addresses).1.passed = false := by
      unfold checkBootloaderRegion
      dsimp only
      rw [if_pos hne]
    refine ⟨h1, h2, ?_⟩
    apply validate_safety_of_critical
    rw [validateSafetyFull_snd, h2]
    simp
  · intro hall
    have hnil : hd.addresses.filter (fun b => decide (b.1 < BOOTLOADER_REGION_END)) = [] :=
      List.filter_eq_nil_iff.mpr (fun b hb => by simpa using hall b hb)
    constructor
    · unfold checkBootloaderRegion
      dsimp only
      rw [if_neg (by simp [hnil])]
    · unfold checkBootloaderRegion
      dsimp only
      rw [if_neg (by simp [hnil])]

/-- Witness for C1 at the self-test inputs: the block `(0x10000, 0x15000)`
overlaps the bootloader region, so validation aborts even though the second
block is safe; with only safe blocks the finding passes. -/
theorem c1_bootloader_region_overlap_is_critical_witness :
    (∃ b ∈ [((0x10000 : Nat), (0x15000 : Nat)), (0x27000, 0x30000)],
        b.1 < b.2 ∧ b.1 < BOOTLOADER_REGION_END) ∧
    validate_safety
        ⟨[(0x10000, 0x15000), (0x27000, 0x30000)], 0x10000, 0x30000, 0x14000, [0x10000]⟩
      = .error SafetyErrorMsg ∧
    (checkBootloaderRegion [((0x27000 : Nat), (0x30000 : Nat))]).1.passed = true :=
  ⟨⟨(0x10000, 0x15000), by decide, by decide, by decide⟩,
    ((c1_bootloader_region_overlap_is_critical
        ⟨[(0x10000, 0x15000), (0x27000, 0x30000)], 0x10000, 0x30000, 0x14000, [0x10000]⟩).1
      ⟨(0x10000, 0x15000), by decide, by decide, by decide⟩).2.2,
    ((c1_bootloader_region_overlap_is_critical
        ⟨[(0x27000, 0x30000)], 0x27000, 0x30000, 0x9000, []⟩).2 (by decide)).1⟩

/-- C2 (amended): `validate_safety` always evaluates all of its checks and
assembles the complete findings list (one finding per check, the segment
check only when segments exist) before deciding to raise, and any critical
check makes it raise `SafetyError` carrying only its fixed message — the
assembled findings list is not part of the exception, so the caller does not
receive the report. -/
theorem c2_full_report_assembled_before_raise (hd : HexData) :
    ((validateSafetyFull hd).1.map Finding.name =
      ["BOOTLOADER PROTECTION", "FLASH BOUNDS", "APPLICATION SIZE", "BOOTLOADER REGION"]
        ++ (if hd.segments = [] then [] else ["SEGMENT ADDRESSES"])) ∧
    ((validateSafetyFull hd).2 = true → validate_safety hd = .error SafetyErrorMsg) := by
  constructor
  · rw [validateSafetyFull_fst]
    have n1 : (checkMinAddress hd.min_addr).1.name = "BOOTLOADER PROTECTION" := by
      unfold checkMinAddress
      split_ifs <;> rfl
    have n2 : (checkMaxAddress hd.max_addr).1.name = "FLASH BOUNDS" := by
      unfold checkMaxAddress
      split_ifs <;> rfl
    have n3 : (checkAppSize hd.min_addr hd.max_addr).1.name = "APPLICATION SIZE" := by
      unfold checkAppSize
      dsimp only
      split_ifs <;> rfl
    have n4 : (checkBootloaderRegion hd.addresses).1.name = "BOOTLOADER REGION" := by
      unfold checkBootloaderRegion
      dsimp only
      split_ifs <;> rfl
    have n5 : (checkSegments hd.segments).map Finding.name =
        if hd.segments = [] then [] else ["SEGMENT ADDRESSES"] := by
      unfold checkSegments
      split_ifs <;> rfl
    simp [n1, n2, n3, n4, n5]
  · exact validate_safety_of_critical hd

/-- Witness for C2 at a critical input: all five findings are assembled, and
the raise delivers only the fixed message. -/
theorem c2_full_report_assembled_before_raise_witness :
    ((validateSafetyFull ⟨[(0x5000, 0x10000)], 0x5000, 0x10000, 0xB000, [0]⟩).2 = true) ∧
    validate_safety ⟨[(0x5000, 0x10000)], 0x5000, 0x10000, 0xB000, [0]⟩
      = .error SafetyErrorMsg :=
  ⟨by decide,
    (c2_full_report_assembled_before_raise
      ⟨[(0x5000, 0x10000)], 0x5000, 0x10000, 0xB000, [0]⟩).2 (by decide)⟩

/-- C2 counterexample: two parse results whose assembled reports differ map
to the *same* caller-visible outcome (the bare `SafetyError` message), so the
caller does not see the complete report — contradicting "the caller sees the
complete report (every assembled finding) before the abort". -/
theorem c2_caller_does_not_see_report_counterexample :
    validate_safety ⟨[(0x5000, 0x10000)], 0x5000, 0x10000, 0xB000, [0]⟩ =
      validate_safety
        ⟨[(0x10000, 0x15000), (0x27000, 0x30000)], 0x10000, 0x30000, 0x14000, [0x10000]⟩ ∧
    (validateSafetyFull ⟨[(0x5000, 0x10000)], 0x5000, 0x10000, 0xB000, [0]⟩).1 ≠
      (validateSafetyFull
        ⟨[(0x10000, 0x15000), (0x27000, 0x30000)], 0x10000, 0x30000, 0x14000, [0x10000]⟩).1 :=
  ⟨by rfl, by decide⟩

/-- C3 (amended): whenever no check sets `critical_failure`,
`validate_safety` returns the full findings list (never raises) and
`pre_upload_check`'s CLI exits 0 even with warning-level findings; but
`uf2_upload.validate_hex` returns `True` only when *every* finding passed, so
a warning-level finding does make the upload orchestrator's validation phase
report failure and block the upload. -/
theorem c3_warnings_do_not_raise_but_block_uf2 (hd : HexData)
    (h : (validateSafetyFull hd).2 = false) :
    validate_safety hd = .ok (validateSafetyFull hd).1 ∧
    (∀ lines, parse_intel_hex lines = .ok hd → mainValidationExit lines = 0) ∧
    Uf2Upload.validate_hex (.ok hd) = (validateSafetyFull hd).1.all (fun f => f.passed) := by
  refine ⟨validate_safety_of_no_critical hd h, ?_, ?_⟩
  · intro lines hl
    unfold mainValidationExit
    rw [hl]
    dsimp only
    rw [validate_safety_of_no_critical hd h]
  · unfold Uf2Upload.validate_hex
    dsimp only
    rw [validate_safety_of_no_critical hd h]

/-- Witness for C3 at an image with a config-region (warning) finding:
no critical flag, the validator returns its report, and `validate_hex`
evaluates to the all-passed conjunction. -/
theorem c3_warnings_do_not_raise_but_block_uf2_witness :
    (validateSafetyFull ⟨[(0x27000, 0xFF800)], 0x27000, 0xFF800, 0xD8800, []⟩).2 = false ∧
    Uf2Upload.validate_hex (.ok ⟨[(0x27000, 0xFF800)], 0x27000, 0xFF800, 0xD8800, []⟩) =
      (validateSafetyFull ⟨[(0x27000, 0xFF800)], 0x27000, 0xFF800, 0xD8800, []⟩).1.all
        (fun f => f.passed) :=
  ⟨by decide,
    (c3_warnings_do_not_raise_but_block_uf2
      ⟨[(0x27000, 0xFF800)], 0x27000, 0xFF800, 0xD8800, []⟩ (by decide)).2.2⟩

/-- C3 counterexample: an image ending at `0xFF800` has no critical finding
(`validate_safety` returns the report, containing warning-level findings),
yet `uf2_upload.validate_hex` returns `False`, which blocks the upload —
contradicting "warning-level findings never block the upload or cause the
validation phase to report failure". -/
theorem c3_warning_blocks_upload_counterexample :
    validate_safety ⟨[(0x27000, 0xFF800)], 0x27000, 0xFF800, 0xD8800, []⟩ =
      .ok (validateSafetyFull ⟨[(0x27000, 0xFF800)], 0x27000, 0xFF800, 0xD8800, []⟩).1 ∧
    (validateSafetyFull ⟨[(0x27000, 0xFF800)], 0x27000, 0xFF800, 0xD8800, []⟩).1.any
        (fun f => !f.passed) = true ∧
    Uf2Upload.validate_hex (.ok ⟨[(0x27000, 0xFF800)], 0x27000, 0xFF800, 0xD8800, []⟩)
      = false :=
  ⟨by rfl, by decide, by decide⟩

/-- C4: a record line carrying a stored checksum byte different from the
two's-complement (low byte) of the sum of its byte count, address bytes,
record type and payload bytes is rejected by the parser with a
`HexValidationError` carrying that line's number and the stored ("expected")
versus recomputed ("got") checksum, and the parse aborts there — the
remaining lines are never processed; in particular this holds for any single
flipped bit in the checksum byte of a well-formed record. -/
theorem c4_checksum_mismatch_is_fatal (st : PState) (n : Nat) (r : IRecord)
    (ck : Nat) (rest : List (List Char)) (hr : wfRecord r) (hck : ck < 256)
    (hne : ck ≠ recChecksum r) :
    parseLinesFrom n st (encodeWithCk r ck :: rest) =
        .error (.checksumMismatch n ck (recChecksum r)) ∧
    ∀ k, k < 8 →
      parseLinesFrom n st (encodeWithCk r (recChecksum r ^^^ (1 <<< k)) :: rest) =
        .error (.checksumMismatch n (recChecksum r ^^^ (1 <<< k)) (recChecksum r)) := by
  constructor
  · rw [parseLinesFrom, processLine_encodeWithCk_bad n st r ck hr hck hne]
  · intro k hk
    have h1 : (1 <<< k) < 256 := by
      rw [Nat.shiftLeft_eq, Nat.one_mul]
      calc 2 ^ k < 2 ^ 8 := Nat.pow_lt_pow_right (by omega) hk
        _ = 256 := by norm_num
    have hck' : recChecksum r ^^^ (1 <<< k) < 256 := by
      have h256 : (256 : Nat) = 2 ^ 8 := by norm_num
      rw [h256]
      exact Nat.xor_lt_two_pow (by rw [← h256]; exact recChecksum_lt r)
        (by rw [← h256]; exact h1)
    have hne' : recChecksum r ^^^ (1 <<< k) ≠ recChecksum r := by
      intro he
      have h0 : (1 <<< k) = 0 := by
        have h2 := congrArg (fun x => recChecksum r ^^^ x) he.symm
        simpa [← Nat.xor_assoc] using h2.symm
      have hpos : (1 <<< k) ≠ 0 := by simp [Nat.shiftLeft_eq]
      exact hpos h0
    rw [parseLinesFrom, processLine_encodeWithCk_bad n st r _ hr hck' hne']

/-- Witness for C4: the data record `addr 0x2700, payload [0x44]` has correct
checksum `0x94`; storing `0x95` instead aborts line 1 with the mismatch
error, and so does flipping bit 0 of the correct checksum. -/
theorem c4_checksum_mismatch_is_fatal_witness :
    wfRecord (.data 0x2700 [0x44]) ∧ (0x95 : Nat) < 256 ∧
    (0x95 : Nat) ≠ recChecksum (.data 0x2700 [0x44]) ∧
    parseLinesFrom 1 initState
        [encodeWithCk (.data 0x2700 [0x44]) 0x95, encodeRecord .eof] =
      .error (.checksumMismatch 1 0x95 (recChecksum (.data 0x2700 [0x44]))) ∧
    parseLinesFrom 1 initState
        [encodeWithCk (.data 0x2700 [0x44]) (recChecksum (.data 0x2700 [0x44]) ^^^ (1 <<< 0)),
          encodeRecord .eof] =
      .error (.checksumMismatch 1 (recChecksum (.data 0x2700 [0x44]) ^^^ (1 <<< 0))
        (recChecksum (.data 0x2700 [0x44]))) :=
  ⟨by decide, by decide, by decide,
    (c4_checksum_mismatch_is_fatal initState 1 (.data 0x2700 [0x44]) 0x95
      [encodeRecord .eof] (by decide) (by decide) (by decide)).1,
    (c4_checksum_mismatch_is_fatal initState 1 (.data 0x2700 [0x44]) 0x95
      [encodeRecord .eof] (by decide) (by decide) (by decide)).2 0 (by decide)⟩

/-- C5: the BOOTLOADER PROTECTION finding is a trichotomy on the minimum
data address: critical (finding fails, `critical_failure` set, and
`validate_safety` raises `SafetyError`) below the absolute floor `0x20000`;
a non-critical warning (finding fails, no critical flag) in
`[0x20000, 0x27000)`; a pass at or above `0x27000`.  When no check at all is
critical, `validate_safety` returns the report rather than raising. -/
theorem c5_min_address_trichotomy (hd : HexData) :
    (hd.min_addr < ABSOLUTE_MIN_ADDRESS →
      (checkMinAddress hd.min_addr).1.passed = false ∧
      (checkMinAddress hd.min_addr).2 = true ∧
      validate_safety hd = .error SafetyErrorMsg) ∧
    (ABSOLUTE_MIN_ADDRESS ≤ hd.min_addr → hd.min_addr < APPLICATION_START →
      (checkMinAddress hd.min_addr).1.passed = false ∧
      (checkMinAddress hd.min_addr).2 = false) ∧
    (APPLICATION_START ≤ hd.min_addr →
      (checkMinAddress hd.min_addr).1.passed = true ∧
      (checkMinAddress hd.min_addr).2 = false) ∧
    ((validateSafetyFull hd).2 = false →
      validate_safety hd = .ok (validateSafetyFull hd).1) := by
  refine ⟨?_, ?_, ?_, validate_safety_of_no_critical hd⟩
  · intro h
    have h2 : (checkMinAddress hd.min_addr).2 = true := by
      unfold checkMinAddress
      rw [if_pos h]
    have h1 : (checkMinAddress hd.min_addr).1.passed = false := by
      unfold checkMinAddress
      rw [if_pos h]
    refine ⟨h1, h2, ?_⟩
    apply validate_safety_of_critical
    rw [validateSafetyFull_snd, h2]
    simp
  · intro hge hlt
    constructor
    · unfold checkMinAddress
      rw [if_neg (not_lt.mpr hge), if_pos hlt]
    · unfold checkMinAddress
      rw [if_neg (not_lt.mpr hge), if_pos hlt]
  · intro hge
    have hge' : ¬ hd.min_addr < ABSOLUTE_MIN_ADDRESS := by
      unfold ABSOLUTE_MIN_ADDRESS
      unfold APPLICATION_START at hge
      omega
    constructor
    · unfold checkMinAddress
      rw [if_neg hge', if_neg (not_lt.mpr hge)]
    · unfold checkMinAddress
      rw [if_neg hge', if_neg (not_lt.mpr hge)]

/-- Witness for C5 at the spec's example inputs: an image whose lowest
address is `0x5000` raises `SafetyError`; the safe image starting at
`0x27000` yields no critical finding and the report is returned. -/
theorem c5_min_address_trichotomy_witness :
    ((0x5000 : Nat) < ABSOLUTE_MIN_ADDRESS) ∧
    validate_safety ⟨[(0x5000, 0x10000)], 0x5000, 0x10000, 0xB000, [0]⟩
      = .error SafetyErrorMsg ∧
    (validateSafetyFull ⟨[(0x27000, 0x30000)], 0x27000, 0x30000, 0x9000, [0x20000]⟩).2
      = false ∧
    validate_safety ⟨[(0x27000, 0x30000)], 0x27000, 0x30000, 0x9000, [0x20000]⟩
      = .ok (validateSafetyFull
          ⟨[(0x27000, 0x30000)], 0x27000, 0x30000, 0x9000, [0x20000]⟩).1 :=
  ⟨by decide,
    ((c5_min_address_trichotomy
        ⟨[(0x5000, 0x10000)], 0x5000, 0x10000, 0xB000, [0]⟩).1 (by decide)).2.2,
    by decide,
    (c5_min_address_trichotomy
        ⟨[(0x27000, 0x30000)], 0x27000, 0x30000, 0x9000, [0x20000]⟩).2.2.2 (by decide)⟩

/-- C6: on every well-formed record stream the parser behaves exactly as the
spec's reference semantics `refParse`: the extended-address accumulator
starts at 0, is set to `segment <<< 4` by type-02 records and to
`upper16 <<< 16` by type-04 records with every set value recorded in the
segments list; each data record contributes the block
`(acc + addr, acc + addr + byteCount)`; and parsing stops at the first
end-of-file record, so records after it contribute nothing. -/
theorem c6_parser_matches_reference_semantics (records : List IRecord)
    (hwf : ∀ r ∈ records, wfRecord r) :
    ∃ hd : HexData,
      parse_intel_hex (records.map (fun r => String.mk (encodeRecord r))) = .ok hd ∧
      hd.addresses = (refParse 0 records).1 ∧
      hd.segments = (refParse 0 records).2 := by
  refine ⟨finalize (stateAfter initState records),
    parse_intel_hex_encode records hwf, ?_, ?_⟩
  · have h := (stateAfter_ref records initState).1
    simpa [finalize, initState] using h
  · have h := (stateAfter_ref records initState).2
    simpa [finalize, initState] using h

/-- Witness for C6 on a stream exercising all record types, including a data
record after the end-of-file record (which must contribute nothing). -/
theorem c6_parser_matches_reference_semantics_witness :
    (∀ r ∈ [IRecord.extSeg 0x2700, .data 0x10 [0xAA, 0xBB], .extLin 3, .eof,
        .data 0x5 [1]], wfRecord r) ∧
    ∃ hd : HexData,
      parse_intel_hex
          ([IRecord.extSeg 0x2700, .data 0x10 [0xAA, 0xBB], .extLin 3, .eof,
            .data 0x5 [1]].map (fun r => String.mk (encodeRecord r))) = .ok hd ∧
      hd.addresses = (refParse 0 [IRecord.extSeg 0x2700, .data 0x10 [0xAA, 0xBB],
        .extLin 3, .eof, .data 0x5 [1]]).1 ∧
      hd.segments = (refParse 0 [IRecord.extSeg 0x2700, .data 0x10 [0xAA, 0xBB],
        .extLin 3, .eof, .data 0x5 [1]]).2 :=
  ⟨by decide, c6_parser_matches_reference_semantics _ (by decide)⟩

/-- C7 (amended): the staggered-parallel run produces exactly one
`UploadResult` per target port, in order; each port's success flag is a
function of that port's own phase outcomes alone (one device's failure never
changes another's result); and the aggregate exit status is 0 exactly when
every device succeeded.  Partial and total failure both exit 1 — they are
distinguished only in the printed per-device summary, not by the exit
status. -/
theorem c7_per_device_results_and_exit (ports : List String)
    (info : String → DeviceInfo) :
    (upload_parallel_results ports info).map (fun r => r.1) = ports ∧
    (upload_parallel_results ports info).map (fun r => r.2.1)
      = ports.map (fun p => deviceSuccess (info p)) ∧
    (multi_device_exit (upload_parallel_results ports info) = 0 ↔
      ∀ p ∈ ports, deviceSuccess (info p) = true) := by
  unfold upload_parallel_results
  by_cases hall : ports.all (fun p => !(info p).mount_point) = true
  · rw [if_pos hall]
    refine ⟨?_, ?_, ?_⟩
    · rw [List.map_map]
      have hcomp0 : ((fun (r : String × Bool × String) => r.1)
          ∘ fun p => (p, false, "mount failed")) = fun (p : String) => p := by
        funext p
        rfl
      rw [hcomp0]
      simp
    · rw [List.map_map]
      apply List.map_congr_left
      intro p hp
      have hmp := List.all_eq_true.mp hall p hp
      simp only [Bool.not_eq_true'] at hmp
      simp [Function.comp, deviceSuccess, hmp]
    · rw [multi_device_exit_eq_zero_iff]
      constructor
      · intro hmem p hp
        have := hmem (p, false, "mount failed") (List.mem_map.mpr ⟨p, hp, rfl⟩)
        simp at this
      · intro hps r hr
        obtain ⟨p, hp, rfl⟩ := List.mem_map.mp hr
        have hmp := List.all_eq_true.mp hall p hp
        simp only [Bool.not_eq_true'] at hmp
        have hsucc := hps p hp
        rw [deviceSuccess, hmp] at hsucc
        simp at hsucc
  · rw [if_neg hall]
    refine ⟨?_, ?_, ?_⟩
    · rw [List.map_map]
      have hcomp : ((fun (r : String × Bool × String) => r.1)
          ∘ fun p => perPortResult p (info p)) = fun p => p := by
        funext p
        exact perPortResult_fst p (info p)
      rw [hcomp]
      simp
    · rw [List.map_map]
      apply List.map_congr_left
      intro p _
      exact perPortResult_success p (info p)
    · rw [multi_device_exit_eq_zero_iff]
      constructor
      · intro hmem p hp
        have := hmem (perPortResult p (info p)) (List.mem_map.mpr ⟨p, hp, rfl⟩)
        rw [perPortResult_success] at this
        exact this
      · intro hps r hr
        obtain ⟨p, hp, rfl⟩ := List.mem_map.mp hr
        rw [perPortResult_success]
        exact hps p hp

/-- Witness for C7: two devices, the second failing at the mount phase; the
first still succeeds, results are one per port, and the exit is nonzero. -/
theorem c7_per_device_results_and_exit_witness :
    (upload_parallel_results ["/dev/ttyACM0", "/dev/ttyACM1"]
        (fun p => if p = "/dev/ttyACM0" then ⟨true, true, true, true, true⟩
          else ⟨true, false, false, false, true⟩)).map (fun r => r.2.1)
      = [true, false] := by
  rw [(c7_per_device_results_and_exit ["/dev/ttyACM0", "/dev/ttyACM1"]
    (fun p => if p = "/dev/ttyACM0" then ⟨true, true, true, true, true⟩
      else ⟨true, false, false, false, true⟩)).2.1]
  decide

/-- C7 counterexample: a partial failure (one of two devices succeeded) and a
total failure (none succeeded) both exit with status 1, so the aggregate exit
status does not distinguish partial from total failure — contradicting that
part of the claim. -/
theorem c7_exit_code_counterexample :
    multi_device_exit
        [("/dev/ttyACM0", true, "OK"), ("/dev/ttyACM1", false, "mount failed")] = 1 ∧
    multi_device_exit
        [("/dev/ttyACM0", false, "mount failed"),
          ("/dev/ttyACM1", false, "mount failed")] = 1 ∧
    (("/dev/ttyACM0", true, "OK") : String × Bool × String).2.1 = true ∧
    (∀ r ∈ [(("/dev/ttyACM0" : String), false, ("mount failed" : String)),
        ("/dev/ttyACM1", false, "mount failed")], r.2.1 = false) := by
  refine ⟨by decide, by decide, by decide, by decide⟩

/-- C8: `verify_reboot` (timeouts abstracted as poll budgets `t1`, `t2`)
returns failure whenever the identity marker is still present at every poll
of the first stage — the loop is bounded, so it terminates rather than
hanging; and it returns success whenever the marker disappears at some poll
within the first budget, regardless of the serial-port observations of the
second stage (the stage-2 timeout case is the qualified success, also
reported as `True`). -/
theorem c8_verify_reboot_two_stage (driveGone serialFound portExists : Nat → Bool)
    (device_serial port : Option String) (t1 t2 : Nat) :
    ((∀ i, i < t1 → driveGone i = false) →
      verify_reboot driveGone device_serial port serialFound portExists t1 t2 = false) ∧
    ((∃ i, i < t1 ∧ driveGone i = true) →
      verify_reboot driveGone device_serial port serialFound portExists t1 t2 = true) := by
  constructor
  · intro hall
    unfold verify_reboot
    have hnone : firstPoll driveGone 0 t1 = none :=
      (firstPoll_eq_none t1 0 driveGone).mpr (fun j _ h2 => hall j (by omega))
    rw [hnone]
  · rintro ⟨i, hi, hg⟩
    unfold verify_reboot
    cases hfp : firstPoll driveGone 0 t1 with
    | none =>
      have hcontra := (firstPoll_eq_none t1 0 driveGone).mp hfp i (by omega) (by omega)
      rw [hg] at hcontra
      exact absurd hcontra (by simp)
    | some j =>
      dsimp only
      cases firstPoll (fun i =>
        match device_serial with
        | some _ => serialFound i
        | none =>
          match port with
          | some _ => portExists i
          | none => false) 0 t2 <;> rfl

/-- Witness for C8: with the marker never disappearing in 3 polls the result
is failure; with the marker gone at poll 1 but the serial port never
reappearing, the result is the qualified success `true`. -/
theorem c8_verify_reboot_two_stage_witness :
    verify_reboot (fun _ => false) (some "XIAO-SN1") none
        (fun _ => false) (fun _ => false) 3 4 = false ∧
    verify_reboot (fun i => decide (1 ≤ i)) (some "XIAO-SN1") none
        (fun _ => false) (fun _ => false) 3 4 = true :=
  ⟨(c8_verify_reboot_two_stage (fun _ => false) (fun _ => false) (fun _ => false)
      (some "XIAO-SN1") none 3 4).1 (fun i _ => rfl),
    (c8_verify_reboot_two_stage (fun i => decide (1 ≤ i)) (fun _ => false)
      (fun _ => false) (some "XIAO-SN1") none 3 4).2 ⟨1, by decide, by decide⟩⟩

/-- C9 (amended): a stripped line that does not start with the ':' marker is
silently skipped — the loop `continue`s to the next line with the state
unchanged — rather than aborting; a line that does start with ':' but whose
fields fail hex parsing aborts the parse with a `HexValidationError` naming
that line. -/
theorem c9_malformed_line_handling (st : PState) (n : Nat) (l : List Char)
    (rest : List (List Char)) :
    ((pyStrip l).head? ≠ some ':' →
      parseLinesFrom n st (l :: rest) = parseLinesFrom (n + 1) st rest) ∧
    ((pyStrip l).head? = some ':' → parseRecordFields (pyStrip l) = none →
      parseLinesFrom n st (l :: rest) = .error (.parseError n)) := by
  constructor
  · intro h
    rw [parseLinesFrom]
    unfold processLine
    dsimp only
    rw [if_pos h]
  · intro h1 h2
    rw [parseLinesFrom]
    unfold processLine
    dsimp only
    rw [if_neg (by simp [h1]), h2]

/-- Witness for C9 (amended): "hello" is skipped (the following record is
still parsed), and ":zz" aborts with a parse error on its line. -/
theorem c9_malformed_line_handling_witness :
    parseLinesFrom 1 initState
        [String.toList "hello", String.toList ":012700004494"] =
      parseLinesFrom 2 initState [String.toList ":012700004494"] ∧
    parseLinesFrom 1 initState [String.toList ":zz"] = .error (.parseError 1) :=
  ⟨(c9_malformed_line_handling initState 1 (String.toList "hello")
      [String.toList ":012700004494"]).1 (by decide),
    (c9_malformed_line_handling initState 1 (String.toList ":zz") []).2
      (by decide) (by decide)⟩

/-- C9 counterexample: an input stream containing the malformed line
"hello world" (no ':' marker) parses *successfully* — the malformed line is
skipped and the following data record is still processed — contradicting
"parsing aborts with an error rather than continuing past that line". -/
theorem c9_malformed_line_skipped_counterexample :
    parse_intel_hex ["hello world", ":012700004494"] =
      .ok ⟨[(0x2700, 0x2701)], 0x2700, 0x2701, 1, []⟩ := by
  rfl

/-- C10: any input stream with no data records (addresses list empty) parses
to `min_addr = 0`, `max_addr = 0`, `total_bytes = 0`, and `validate_safety`
on that result always raises `SafetyError`, because the defaulted minimum
address 0 is below the absolute safety floor — an image with no data can
never pass validation. -/
theorem c10_empty_image_never_passes (lines : List String) (hd : HexData)
    (hp : parse_intel_hex lines = .ok hd) (hnd : hd.addresses = []) :
    hd.min_addr = 0 ∧ hd.max_addr = 0 ∧ hd.total_bytes = 0 ∧
      validate_safety hd = .error SafetyErrorMsg := by
  unfold parse_intel_hex at hp
  cases hinner : parseLinesFrom 1 initState (lines.map String.toList) with
  | error e =>
    rw [hinner] at hp
    simp [Except.map] at hp
  | ok st =>
    rw [hinner] at hp
    simp only [Except.map, Except.ok.injEq] at hp
    have hstA : st.addresses = [] := by
      have : (finalize st).addresses = hd.addresses := by rw [hp]
      rw [hnd] at this
      exact this
    obtain ⟨hmin, hmax, htot⟩ :=
      parseLinesFrom_empty_inv (lines.map String.toList) 1 initState st hinner
        (fun _ => ⟨rfl, rfl, rfl⟩) hstA
    have h1 : hd.min_addr = 0 := by
      rw [← hp]
      simp [finalize, hmin]
    have h2 : hd.max_addr = 0 := by
      rw [← hp]
      simp [finalize, hmax]
    have h3 : hd.total_bytes = 0 := by
      rw [← hp]
      simp [finalize, htot]
    refine ⟨h1, h2, h3, ?_⟩
    apply validate_safety_of_critical
    rw [validateSafetyFull_snd]
    have hc1 : (checkMinAddress hd.min_addr).2 = true := by
      rw [h1]
      rfl
    rw [hc1]
    simp

/-- Witness for C10: a file holding only the end-of-file record parses to
the all-zero aggregates and is rejected by `validate_safety`. -/
theorem c10_empty_image_never_passes_witness :
    parse_intel_hex [":00000001FF"] = .ok ⟨[], 0, 0, 0, []⟩ ∧
    validate_safety ⟨[], 0, 0, 0, []⟩ = .error SafetyErrorMsg :=
  ⟨by rfl,
    (c10_empty_image_never_passes [":00000001FF"] ⟨[], 0, 0, 0, []⟩
      (by rfl) rfl).2.2.2⟩

end Claims
